import Mathlib

/-!
Verification of the document-store core of the university chatbot backend
(`src/main.py`, `src/data/config.py`).

Modelling conventions:
* JSON-compatible values are the inductive `Json` below (numbers are modelled
  at integer granularity; none of the data files or claims involve floats).
* Python `dict`s are insertion-ordered association lists with unique keys;
  `dictSet` models `d[k] = v` (replace in place, else append) and
  `dictUpdate` models `d.update(patch)`.
* The process-wide global `data` dict is a `Store`; the file system is a
  `Disk` mapping a path to `none` (file absent), `some none` (file present
  but `json.load` fails) or `some (some j)` (file parses to `j`).  Writing a
  file stores the parsed form of what `json.dump` produced; the Python
  `json` round-trip on string-keyed data is assumed exact.
* Exceptions are explicit: handler bodies return `Except PyExc` together
  with the state they leave behind (Python mutates the global dict in place,
  so a body that fails after mutating still leaves the mutation).  The
  `try/except Exception` wrapper in `update_data` is modelled by
  `update_data` re-wrapping any body exception as an HTTP 500, exactly as
  the code does - including a raised `HTTPException(404)`, which is itself
  an `Exception` and is therefore caught and converted to a 500.
-/

inductive Json where
  | null : Json
  | bool (b : Bool) : Json
  | num (n : Int) : Json
  | str (s : String) : Json
  | arr (items : List Json) : Json
  | obj (entries : List (String × Json)) : Json
  deriving Repr

def Json.isArr : Json → Bool
  | .arr _ => true
  | _ => false

def Json.isObj : Json → Bool
  | .obj _ => true
  | _ => false

abbrev Store := List (String × Json)

/-- File system state: path ↦ nothing (absent) / `some none` (unparseable) /
`some (some j)` (parses to `j`). -/
abbrev Disk := String → Option (Option Json)

/-- Lookup in a Python dict (first entry with the key; keys are unique). -/
def dictGet {α : Type} (d : List (String × α)) (k : String) : Option α :=
  match d with
  | [] => none
  | (k', v) :: rest => if k' = k then some v else dictGet rest k

/-- Python `d[k] = v`: replace the (unique) binding in place, else append. -/
def dictSet {α : Type} (d : List (String × α)) (k : String) (v : α) :
    List (String × α) :=
  match d with
  | [] => [(k, v)]
  | (k', v') :: rest =>
      if k' = k then (k, v) :: rest else (k', v') :: dictSet rest k v

/-- Python `d.update(patch)` for a dict `patch`: assign each patch entry in
order. -/
def dictUpdate {α : Type} (d patch : List (String × α)) : List (String × α) :=
  patch.foldl (fun acc p => dictSet acc p.1 p.2) d

/-- `src/data/config.py` lines 8-15: the fixed name ↦ path configuration
(`os.path.join(JSON_DIR, ...)` rendered with `/`). -/
def DATA_FILES : List (String × String) :=
  [("academic_deadlines", "data/json/academic_deadlines.json"),
   ("course_information", "data/json/course_information.json"),
   ("student_service_support", "data/json/student_support.json"),
   ("library_books_list", "data/json/library_books.json"),
   ("transport_service", "data/json/transport_service.json"),
   ("paper_recheck", "data/json/paper_recheck.json")]

/-- `DATA_FILES[file_name]` as a partial lookup. -/
def lookupPath (fileName : String) : Option String :=
  dictGet DATA_FILES fileName

/-- `load_data` body for one entry (`src/main.py` lines 45-52): parse the
file, and on `FileNotFoundError` or any `json.load` failure bind `{}`. -/
def loadOne (disk : Disk) (filepath : String) : Json :=
  match disk filepath with
  | some (some j) => j
  | _ => Json.obj []

/-- `load_data` (`src/main.py` lines 41-53): every configured key is bound,
in configuration order; failures degrade to `{}` and never abort. -/
def load_data (disk : Disk) : Store :=
  DATA_FILES.map (fun kf => (kf.1, loadOne disk kf.2))

structure HTTPError where
  status : Nat
  detail : String
  deriving Repr

/-- Python exceptions that the `update_data` body can raise. -/
inductive PyExc where
  | httpExc (status : Nat) (detail : String) : PyExc
  | ioError (msg : String) : PyExc
  | keyError (key : String) : PyExc
  deriving Repr

/-- `str(e)` for the exceptions above (Starlette `HTTPException.__str__` is
`f"{status_code}: {detail}"`). -/
def pyStr : PyExc → String
  | .httpExc s d => toString s ++ ": " ++ d
  | .ioError m => m
  | .keyError k => "\x27" ++ k ++ "\x27"

/-- HTTP status of a handler outcome (FastAPI returns 200 for a plain dict). -/
def responseStatus {α : Type} : Except HTTPError α → Nat
  | .ok _ => 200
  | .error e => e.status

/-- `get_data` (`src/main.py` lines 105-110).  The handler only reads the
global `data` dict, so the store it leaves behind is the input store. -/
def get_data (st : Store) (fileName : String) : Store × Except HTTPError Json :=
  (st,
    match dictGet st fileName with
    | some v => .ok v
    | none => .error ⟨404, "File not found"⟩)

/-- `src/main.py` lines 169-173: the list branch of the in-memory merge.
`new_data` a list extends element-wise; anything else is appended as one
element. -/
def listMerge (items : List Json) (newData : Json) : List Json :=
  match newData with
  | .arr p => items ++ p
  | _ => items ++ [newData]

/-- `src/main.py` lines 167-173 with `new_data` a dict (the only shape the
pydantic `UpdateRequest.new_data : dict` field admits): dict current values
merge key-by-key, list current values append via `listMerge`, any other
shape takes no branch and is left unchanged. -/
def applyPatch (current : Json) (newData : List (String × Json)) : Json :=
  match current with
  | .obj entries => .obj (dictUpdate entries newData)
  | .arr items => .arr (listMerge items (.obj newData))
  | other => other

/-- Outcome of the `update_data` try-block body: the store and disk it
leaves behind plus its result or raised exception. -/
structure UpdateOutcome where
  store : Store
  disk : Disk
  result : Except PyExc Json

/-- `src/main.py` lines 159-184, the body inside `try`:  404 check, in-place
in-memory merge, then the synchronous file write (`writeOk` abstracts
whether `open`/`json.dump` succeeds; a failed write leaves the memory merge
in place).  -/
def update_body (st : Store) (disk : Disk) (fileName : String)
    (newData : List (String × Json)) (writeOk : Bool) : UpdateOutcome :=
  match dictGet st fileName with
  | none => ⟨st, disk, .error (.httpExc 404 "File not found")⟩
  | some current =>
      let merged := applyPatch current newData
      let st' := dictSet st fileName merged
      match lookupPath fileName with
      | none => ⟨st', disk, .error (.keyError fileName)⟩
      | some path =>
          if writeOk then
            ⟨st', fun p => if p = path then some (some merged) else disk p,
              .ok merged⟩
          else
            ⟨st', disk, .error (.ioError "write failed")⟩

/-- `update_data` (`src/main.py` lines 156-186): the body runs inside
`try`, and `except Exception as e` re-raises ANY exception - including the
`HTTPException(404)` from the not-found check - as
`HTTPException(500, "Error updating data: " + str(e))`.  On success the
response carries `updated_data` (the merged value). -/
def update_data (st : Store) (disk : Disk) (fileName : String)
    (newData : List (String × Json)) (writeOk : Bool) :
    Store × Disk × Except HTTPError Json :=
  let o := update_body st disk fileName newData writeOk
  match o.result with
  | .ok v => (o.store, o.disk, .ok v)
  | .error e =>
      (o.store, o.disk, .error ⟨500, "Error updating data: " ++ pyStr e⟩)

/-- `get_available_files` (`src/main.py` lines 188-191):
`list(DATA_FILES.keys())`. -/
def get_available_files : List String :=
  DATA_FILES.map Prod.fst

/-! ## Context assembler (`create_context_message`) -/

/-- Python `sep.join(parts)`. -/
def pyJoin (sep : String) : List String → String
  | [] => ""
  | [x] => x
  | x :: xs => x ++ sep ++ pyJoin sep xs

/-- Escaping inside a JSON string literal, as `json.dumps` does for the
characters occurring in this repository's data. -/
def jsonEscapeChar (c : Char) : String :=
  if c = '"' then "\\\""
  else if c = '\\' then "\\\\"
  else if c = '\n' then "\\n"
  else if c = '\t' then "\\t"
  else if c = '\r' then "\\r"
  else String.singleton c

def jsonEscape (s : String) : String :=
  String.join (s.data.map jsonEscapeChar)

/-- `indent * level` spaces. -/
def pad (indent lvl : Nat) : String :=
  String.mk (List.replicate (indent * lvl) ' ')

mutual

/-- `json.dumps(v, indent=indent)` at nesting level `lvl`: empty containers
render flat, non-empty ones multi-line with one indented line per item. -/
def dumps (indent lvl : Nat) : Json → String
  | .null => "null"
  | .bool b => if b then "true" else "false"
  | .num n => toString n
  | .str s => "\"" ++ jsonEscape s ++ "\""
  | .arr [] => "[]"
  | .arr (j :: rest) =>
      "[\n" ++ pyJoin ",\n" (dumpsItems indent (lvl + 1) (j :: rest)) ++
        "\n" ++ pad indent lvl ++ "]"
  | .obj [] => "\x7b\x7d"
  | .obj (e :: rest) =>
      "\x7b\n" ++ pyJoin ",\n" (dumpsEntries indent (lvl + 1) (e :: rest)) ++
        "\n" ++ pad indent lvl ++ "\x7d"

def dumpsItems (indent lvl : Nat) : List Json → List String
  | [] => []
  | j :: rest => (pad indent lvl ++ dumps indent lvl j) :: dumpsItems indent lvl rest

def dumpsEntries (indent lvl : Nat) : List (String × Json) → List String
  | [] => []
  | (k, v) :: rest =>
      (pad indent lvl ++ "\"" ++ jsonEscape k ++ "\": " ++ dumps indent lvl v) ::
        dumpsEntries indent lvl rest

end

/-- `data[k]` on the global dict: raises `KeyError` when absent. -/
def pyIndex (st : Store) (k : String) : Except PyExc Json :=
  match dictGet st k with
  | some v => .ok v
  | none => .error (.keyError k)

def introLine : String :=
  "You are an AI assistant for our university. Use ONLY the following information to answer queries:"

/-- The fixed trailing policy block appended by `create_context_message`
(`src/main.py` lines 81-86; the triple-quoted literal starts with a
newline). -/
def rulesBlock : String :=
  "\nRules:\n1. Use ONLY above data\n2. If you don\x27t have the information, say \x27Please Contact with your Academic Advisor\x27\n3. Quote exact dates/times\n4. Be direct and precise"

/-- One rendered section: `f"\n{title}:\n{json.dumps(content, indent=2)}"`. -/
def sectionText (title : String) (content : Json) : String :=
  "\n" ++ title ++ ":\n" ++ dumps 2 0 content

/-- `create_context_message` (`src/main.py` lines 65-88): builds the
`data_sections` dict (six `data[...]` lookups, each able to raise
`KeyError`), renders each section, appends the rules block and joins with
newlines. -/
def create_context_message (st : Store) : Except PyExc String := do
  let a ← pyIndex st "academic_deadlines"
  let c ← pyIndex st "course_information"
  let s ← pyIndex st "student_service_support"
  let l ← pyIndex st "library_books_list"
  let t ← pyIndex st "transport_service"
  let p ← pyIndex st "paper_recheck"
  let data_sections : List (String × Json) :=
    [("Academic Deadlines", a), ("Course Information", c),
     ("Student Support", s), ("Library Books", l),
     ("Transport Services", t), ("Paper Recheck", p)]
  let context_parts : List String :=
    introLine :: data_sections.map (fun tc => sectionText tc.1 tc.2) ++ [rulesBlock]
  pure (pyJoin "\n" context_parts)

/-- `hay` contains `needle` as a contiguous substring. -/
def containsSub (hay needle : String) : Prop :=
  ∃ pre post, hay = pre ++ needle ++ post

/-- `hay` ends with `tail`. -/
def endsWithStr (hay tail : String) : Prop :=
  ∃ pre, hay = pre ++ tail

/-! ## Dictionary lemmas -/

theorem dictGet_dictSet_self {α : Type} (d : List (String × α)) (k : String)
    (v : α) : dictGet (dictSet d k v) k = some v := by
  induction d with
  | nil => simp [dictSet, dictGet]
  | cons p rest ih =>
      obtain ⟨k', v'⟩ := p
      by_cases h : k' = k
      · simp [dictSet, h, dictGet]
      · simp [dictSet, h, dictGet, ih]

theorem dictGet_dictSet_ne {α : Type} (d : List (String × α)) (k k' : String)
    (v : α) (h : k' ≠ k) : dictGet (dictSet d k v) k' = dictGet d k' := by
  induction d with
  | nil => simp [dictSet, dictGet, Ne.symm h]
  | cons p rest ih =>
      obtain ⟨k₁, v₁⟩ := p
      by_cases h₁ : k₁ = k
      · subst h₁
        simp [dictSet, dictGet, Ne.symm h]
      · simp [dictSet, h₁, dictGet, ih]

theorem dictSet_self {α : Type} (d : List (String × α)) (k : String) (v : α)
    (h : dictGet d k = some v) : dictSet d k v = d := by
  induction d with
  | nil => simp [dictGet] at h
  | cons p rest ih =>
      obtain ⟨k', v'⟩ := p
      by_cases hk : k' = k
      · subst hk
        simp [dictGet] at h
        simp [dictSet, h]
      · simp [dictGet, hk] at h
        simp [dictSet, hk, ih h]

theorem keys_dictSet {α : Type} (d : List (String × α)) (k : String) (v w : α)
    (h : dictGet d k = some w) :
    (dictSet d k v).map Prod.fst = d.map Prod.fst := by
  induction d with
  | nil => simp [dictGet] at h
  | cons p rest ih =>
      obtain ⟨k', v'⟩ := p
      by_cases hk : k' = k
      · subst hk
        simp [dictSet]
      · simp [dictGet, hk] at h
        simp [dictSet, hk, ih h]

theorem dictUpdate_nil {α : Type} (d : List (String × α)) :
    dictUpdate d [] = d := rfl

theorem dictUpdate_cons {α : Type} (d : List (String × α)) (k : String)
    (v : α) (rest : List (String × α)) :
    dictUpdate d ((k, v) :: rest) = dictUpdate (dictSet d k v) rest := rfl

theorem dictGet_dictUpdate_none {α : Type} (patch d : List (String × α))
    (k : String) (h : dictGet patch k = none) :
    dictGet (dictUpdate d patch) k = dictGet d k := by
  induction patch generalizing d with
  | nil => rfl
  | cons p rest ih =>
      obtain ⟨k₁, v₁⟩ := p
      rw [dictUpdate_cons]
      by_cases hk : k₁ = k
      · subst hk; simp [dictGet] at h
      · simp only [dictGet, if_neg hk] at h
        rw [ih _ h, dictGet_dictSet_ne _ _ _ _ (Ne.symm hk)]

theorem dictGet_eq_none_of_notMem {α : Type} (patch : List (String × α))
    (k : String) (h : k ∉ patch.map Prod.fst) : dictGet patch k = none := by
  induction patch with
  | nil => rfl
  | cons p rest ih =>
      obtain ⟨k₁, v₁⟩ := p
      simp only [List.map, List.mem_cons] at h
      push_neg at h
      simp only [dictGet, if_neg (Ne.symm h.1)]
      exact ih h.2

theorem dictGet_dictUpdate_some {α : Type} (patch d : List (String × α))
    (k : String) (v : α) (hnd : (patch.map Prod.fst).Nodup)
    (h : dictGet patch k = some v) :
    dictGet (dictUpdate d patch) k = some v := by
  induction patch generalizing d with
  | nil => simp [dictGet] at h
  | cons p rest ih =>
      obtain ⟨k₁, v₁⟩ := p
      rw [dictUpdate_cons]
      simp only [List.map, List.nodup_cons] at hnd
      by_cases hk : k₁ = k
      · subst hk
        simp [dictGet] at h
        subst h
        rw [dictGet_dictUpdate_none _ _ _ (dictGet_eq_none_of_notMem _ _ hnd.1)]
        exact dictGet_dictSet_self _ _ _
      · simp only [dictGet, if_neg hk] at h
        exact ih _ hnd.2 h

/-! ## String-join lemmas -/

theorem pyJoin_cons₂ (sep x y : String) (ys : List String) :
    pyJoin sep (x :: y :: ys) = x ++ sep ++ pyJoin sep (y :: ys) := rfl

theorem containsSub_append_left (u t s : String) (h : containsSub t s) :
    containsSub (u ++ t) s := by
  obtain ⟨pre, post, hh⟩ := h
  exact ⟨u ++ pre, post, by rw [hh]; simp only [String.append_assoc]⟩

theorem containsSub_self (s : String) : containsSub s s :=
  ⟨"", "", by rw [String.empty_append, String.append_empty]⟩

theorem containsSub_pyJoin_of_mem (sep : String) (parts : List String)
    (s : String) (h : s ∈ parts) : containsSub (pyJoin sep parts) s := by
  induction parts with
  | nil => cases h
  | cons x xs ih =>
      rcases List.mem_cons.mp h with h | h
      · subst h
        cases xs with
        | nil => exact containsSub_self s
        | cons y ys =>
            rw [pyJoin_cons₂]
            exact ⟨"", sep ++ pyJoin sep (y :: ys), by
              rw [String.empty_append, String.append_assoc]⟩
      · cases xs with
        | nil => cases h
        | cons y ys =>
            rw [pyJoin_cons₂]
            exact containsSub_append_left _ _ _ (ih h)

theorem endsWithStr_append_left (u t s : String) (h : endsWithStr t s) :
    endsWithStr (u ++ t) s := by
  obtain ⟨pre, hh⟩ := h
  exact ⟨u ++ pre, by rw [hh, String.append_assoc]⟩

theorem endsWithStr_pyJoin (sep : String) (xs : List String) (p : String) :
    endsWithStr (pyJoin sep (xs ++ [p])) p := by
  induction xs with
  | nil => exact ⟨"", (String.empty_append p).symm⟩
  | cons x xs ih =>
      cases xs with
      | nil => exact ⟨x ++ sep, rfl⟩
      | cons y ys =>
          rw [List.cons_append, List.cons_append, pyJoin_cons₂]
          rw [List.cons_append] at ih
          exact endsWithStr_append_left _ _ _ ih

/-! ## Load lemma -/

theorem dictGet_load_data (disk : Disk) (name path : String)
    (h : (name, path) ∈ DATA_FILES) :
    dictGet (load_data disk) name = some (loadOne disk path) := by
  simp only [DATA_FILES, List.mem_cons, List.not_mem_nil, or_false,
    Prod.mk.injEq] at h
  rcases h with ⟨rfl, rfl⟩ | ⟨rfl, rfl⟩ | ⟨rfl, rfl⟩ | ⟨rfl, rfl⟩ |
    ⟨rfl, rfl⟩ | ⟨rfl, rfl⟩ <;> rfl

/-! ## Claims -/

/-- C1: the claim says an update whose `file_name` is not a configured
dataset name yields a 404 (not a 500) and modifies nothing.  The store is
indeed left unmodified, but the response is a 500: the
`HTTPException(404)` raised inside the `try` block of `update_data` is an
`Exception`, so the handler's own `except Exception` catches it and
re-raises `HTTPException(500, "Error updating data: " + str(e))`.  This
theorem evaluates the code at the failing input. -/
theorem update_unconfigured_name_gives_500_code_bug :
    update_data (load_data (fun _ => none)) (fun _ => none)
        "nonexistent_dataset" [("k", Json.str "v")] true
      = (load_data (fun _ => none), (fun _ => none : Disk),
         Except.error ⟨500, "Error updating data: 404: File not found"⟩)
      ∧ responseStatus (update_data (load_data (fun _ => none)) (fun _ => none)
          "nonexistent_dataset" [("k", Json.str "v")] true).2.2 = 500 :=
  ⟨rfl, rfl⟩

/-- C2: updating a dataset whose current value is a sequence: a sequence
patch is concatenated element-wise (`extend`), any non-sequence patch is
appended as exactly one element (`append`); and through the endpoint (where
the pydantic-validated patch is a dict) the stored value becomes the list
with the patch object appended via exactly this merge. -/
theorem update_sequence_append_semantics (st : Store) (disk : Disk)
    (name : String) (items p : List Json) (v : Json)
    (newData : List (String × Json))
    (hcur : dictGet st name = some (Json.arr items))
    (hpath : (lookupPath name).isSome)
    (hv : v.isArr = false) :
    listMerge items (Json.arr p) = items ++ p
      ∧ listMerge items v = items ++ [v]
      ∧ dictGet (update_data st disk name newData true).1 name
          = some (Json.arr (listMerge items (Json.obj newData))) := by
  obtain ⟨path, hp⟩ := Option.isSome_iff_exists.mp hpath
  refine ⟨rfl, ?_, ?_⟩
  · cases v with
    | arr q => simp [Json.isArr] at hv
    | null => rfl
    | bool b => rfl
    | num n => rfl
    | str s => rfl
    | obj e => rfl
  · simp only [update_data, update_body, hcur, hp, applyPatch, if_pos]
    exact dictGet_dictSet_self _ _ _

theorem update_sequence_append_semantics_witness :
    listMerge [Json.num 1] (Json.arr [Json.num 2, Json.num 3])
        = [Json.num 1] ++ [Json.num 2, Json.num 3]
      ∧ listMerge [Json.num 1] (Json.str "x") = [Json.num 1] ++ [Json.str "x"]
      ∧ dictGet (update_data [("library_books_list", Json.arr [Json.num 1])]
            (fun _ => none) "library_books_list" [("k", Json.null)] true).1
            "library_books_list"
          = some (Json.arr (listMerge [Json.num 1]
              (Json.obj [("k", Json.null)]))) :=
  update_sequence_append_semantics
    [("library_books_list", Json.arr [Json.num 1])] (fun _ => none)
    "library_books_list" [Json.num 1] [Json.num 2, Json.num 3] (Json.str "x")
    [("k", Json.null)] rfl rfl rfl

/-- C3: updating a dataset whose current value is a mapping with a mapping
patch merges key-by-key: afterwards every patch key maps to the patch's
value and every pre-existing key absent from the patch keeps its previous
value; the concrete scenario merges `final` into `midterm` without touching
it. -/
theorem update_mapping_merge_semantics (st : Store) (disk : Disk)
    (name : String) (patch entries : List (String × Json))
    (hcur : dictGet st name = some (Json.obj entries))
    (hpath : (lookupPath name).isSome)
    (hnd : (patch.map Prod.fst).Nodup) :
    dictGet (update_data st disk name patch true).1 name
        = some (Json.obj (dictUpdate entries patch))
      ∧ (∀ k v, dictGet patch k = some v →
          dictGet (dictUpdate entries patch) k = some v)
      ∧ (∀ k, dictGet patch k = none →
          dictGet (dictUpdate entries patch) k = dictGet entries k)
      ∧ dictUpdate [("midterm", Json.str "Oct 10")]
            [("final", Json.str "Dec 15")]
          = [("midterm", Json.str "Oct 10"), ("final", Json.str "Dec 15")] := by
  obtain ⟨path, hp⟩ := Option.isSome_iff_exists.mp hpath
  refine ⟨?_, ?_, ?_, rfl⟩
  · simp only [update_data, update_body, hcur, hp, applyPatch, if_pos]
    exact dictGet_dictSet_self _ _ _
  · exact fun k v h => dictGet_dictUpdate_some patch entries k v hnd h
  · exact fun k h => dictGet_dictUpdate_none patch entries k h

theorem update_mapping_merge_semantics_witness :
    dictGet (update_data
          [("academic_deadlines", Json.obj [("midterm", Json.str "Oct 10")])]
          (fun _ => none) "academic_deadlines"
          [("final", Json.str "Dec 15")] true).1 "academic_deadlines"
        = some (Json.obj (dictUpdate [("midterm", Json.str "Oct 10")]
            [("final", Json.str "Dec 15")]))
      ∧ (∀ k v, dictGet [("final", Json.str "Dec 15")] k = some v →
          dictGet (dictUpdate [("midterm", Json.str "Oct 10")]
            [("final", Json.str "Dec 15")]) k = some v)
      ∧ (∀ k, dictGet [("final", Json.str "Dec 15")] k = none →
          dictGet (dictUpdate [("midterm", Json.str "Oct 10")]
              [("final", Json.str "Dec 15")]) k
            = dictGet [("midterm", Json.str "Oct 10")] k)
      ∧ dictUpdate [("midterm", Json.str "Oct 10")]
            [("final", Json.str "Dec 15")]
          = [("midterm", Json.str "Oct 10"), ("final", Json.str "Dec 15")] :=
  update_mapping_merge_semantics
    [("academic_deadlines", Json.obj [("midterm", Json.str "Oct 10")])]
    (fun _ => none) "academic_deadlines" [("final", Json.str "Dec 15")]
    [("midterm", Json.str "Oct 10")] rfl rfl (by decide)

/-- C4: when the in-memory merge succeeds but the file write fails, the
caller receives an update-failed 500 error while the in-memory value stays
the merged value - the update is not rolled back. -/
theorem update_write_failure_keeps_memory_updated (st : Store) (disk : Disk)
    (name : String) (patch : List (String × Json)) (cur : Json)
    (hcur : dictGet st name = some cur)
    (hpath : (lookupPath name).isSome) :
    responseStatus (update_data st disk name patch false).2.2 = 500
      ∧ dictGet (update_data st disk name patch false).1 name
          = some (applyPatch cur patch) := by
  obtain ⟨path, hp⟩ := Option.isSome_iff_exists.mp hpath
  simp only [update_data, update_body, hcur, hp, if_neg Bool.false_ne_true]
  exact ⟨rfl, dictGet_dictSet_self _ _ _⟩

theorem update_write_failure_keeps_memory_updated_witness :
    responseStatus (update_data
          [("academic_deadlines", Json.obj [("midterm", Json.str "Oct 10")])]
          (fun _ => none) "academic_deadlines"
          [("final", Json.str "Dec 15")] false).2.2 = 500
      ∧ dictGet (update_data
            [("academic_deadlines", Json.obj [("midterm", Json.str "Oct 10")])]
            (fun _ => none) "academic_deadlines"
            [("final", Json.str "Dec 15")] false).1 "academic_deadlines"
          = some (applyPatch (Json.obj [("midterm", Json.str "Oct 10")])
              [("final", Json.str "Dec 15")]) :=
  update_write_failure_keeps_memory_updated
    [("academic_deadlines", Json.obj [("midterm", Json.str "Oct 10")])]
    (fun _ => none) "academic_deadlines" [("final", Json.str "Dec 15")]
    (Json.obj [("midterm", Json.str "Oct 10")]) rfl rfl

/-- C5: after startup every configured dataset name is bound: `Get(name)`
returns the file's parsed content when it existed and parsed, and `{}`
when the file was absent or unparseable; `load_data` is total (it never
aborts) and binds exactly the configured names. -/
theorem startup_binds_every_configured_name (disk : Disk)
    (name path : String) (h : (name, path) ∈ DATA_FILES) :
    (∀ j, disk path = some (some j) →
        (get_data (load_data disk) name).2 = .ok j)
      ∧ (disk path = none →
        (get_data (load_data disk) name).2 = .ok (Json.obj []))
      ∧ (disk path = some none →
        (get_data (load_data disk) name).2 = .ok (Json.obj []))
      ∧ (load_data disk).length = DATA_FILES.length := by
  have hg := dictGet_load_data disk name path h
  refine ⟨?_, ?_, ?_, by simp [load_data]⟩
  · intro j hj; simp [get_data, hg, loadOne, hj]
  · intro hj; simp [get_data, hg, loadOne, hj]
  · intro hj; simp [get_data, hg, loadOne, hj]

theorem startup_binds_every_configured_name_witness :
    (get_data (load_data (fun _ => none)) "academic_deadlines").2
      = .ok (Json.obj []) :=
  (startup_binds_every_configured_name (fun _ => none) "academic_deadlines"
    "data/json/academic_deadlines.json" (List.mem_cons_self _ _)).2.1 rfl

/-- C6: after a successful update, the backing file's parsed content equals
the post-update in-memory value, and the response carries that value. -/
theorem update_persists_merged_value_to_disk (st : Store) (disk : Disk)
    (name path : String) (patch : List (String × Json)) (cur : Json)
    (hcur : dictGet st name = some cur)
    (hp : lookupPath name = some path) :
    dictGet (update_data st disk name patch true).1 name
        = some (applyPatch cur patch)
      ∧ (update_data st disk name patch true).2.1 path
          = some (some (applyPatch cur patch))
      ∧ (update_data st disk name patch true).2.2 = .ok (applyPatch cur patch) := by
  simp only [update_data, update_body, hcur, hp, if_pos]
  refine ⟨dictGet_dictSet_self _ _ _, ?_, ?_⟩ <;> simp

theorem update_persists_merged_value_to_disk_witness :
    dictGet (update_data
          [("transport_service", Json.obj [("bus", Json.str "8am")])]
          (fun _ => none) "transport_service" [("train", Json.str "9am")]
          true).1 "transport_service"
        = some (applyPatch (Json.obj [("bus", Json.str "8am")])
            [("train", Json.str "9am")])
      ∧ (update_data [("transport_service", Json.obj [("bus", Json.str "8am")])]
            (fun _ => none) "transport_service" [("train", Json.str "9am")]
            true).2.1 "data/json/transport_service.json"
          = some (some (applyPatch (Json.obj [("bus", Json.str "8am")])
              [("train", Json.str "9am")]))
      ∧ (update_data [("transport_service", Json.obj [("bus", Json.str "8am")])]
            (fun _ => none) "transport_service" [("train", Json.str "9am")]
            true).2.2
          = .ok (applyPatch (Json.obj [("bus", Json.str "8am")])
              [("train", Json.str "9am")]) :=
  update_persists_merged_value_to_disk
    [("transport_service", Json.obj [("bus", Json.str "8am")])]
    (fun _ => none) "transport_service" "data/json/transport_service.json"
    [("train", Json.str "9am")] (Json.obj [("bus", Json.str "8am")]) rfl rfl

/-- C7: the files endpoint returns exactly the configured dataset names in
configuration order on every call, and no operation changes the store's
name set: startup binds exactly the configured names, updates (on any
input, found or not, write succeeding or failing) preserve the key list,
and reads leave the store untouched. -/
theorem files_list_and_store_keys_invariant (st : Store) (disk : Disk)
    (name : String) (patch : List (String × Json)) (wr : Bool) :
    get_available_files
        = ["academic_deadlines", "course_information",
           "student_service_support", "library_books_list",
           "transport_service", "paper_recheck"]
      ∧ get_available_files = DATA_FILES.map Prod.fst
      ∧ (load_data disk).map Prod.fst = get_available_files
      ∧ ((update_data st disk name patch wr).1).map Prod.fst = st.map Prod.fst
      ∧ ((get_data st name).1).map Prod.fst = st.map Prod.fst := by
  refine ⟨rfl, rfl, rfl, ?_, rfl⟩
  cases hcur : dictGet st name with
  | none => simp [update_data, update_body, hcur]
  | some cur =>
      have hk := keys_dictSet st name (applyPatch cur patch) cur hcur
      cases hp : lookupPath name with
      | none => simp [update_data, update_body, hcur, hp, hk]
      | some path =>
          cases wr <;> simp [update_data, update_body, hcur, hp, hk]

/-- C8: the context assembler succeeds on any store binding all six
configured dataset names (the only stores the system ever builds), its
output contains each dataset's section - header followed by the dataset's
pretty-printed JSON - and the output ends with the fixed policy block. -/
theorem context_message_sections_and_policy (st : Store) (a c s l t p : Json)
    (ha : dictGet st "academic_deadlines" = some a)
    (hc : dictGet st "course_information" = some c)
    (hs : dictGet st "student_service_support" = some s)
    (hl : dictGet st "library_books_list" = some l)
    (ht : dictGet st "transport_service" = some t)
    (hp : dictGet st "paper_recheck" = some p) :
    ∃ out, create_context_message st = .ok out
      ∧ containsSub out (sectionText "Academic Deadlines" a)
      ∧ containsSub out (sectionText "Course Information" c)
      ∧ containsSub out (sectionText "Student Support" s)
      ∧ containsSub out (sectionText "Library Books" l)
      ∧ containsSub out (sectionText "Transport Services" t)
      ∧ containsSub out (sectionText "Paper Recheck" p)
      ∧ endsWithStr out rulesBlock := by
  refine ⟨pyJoin "\n"
      ([introLine, sectionText "Academic Deadlines" a,
        sectionText "Course Information" c, sectionText "Student Support" s,
        sectionText "Library Books" l, sectionText "Transport Services" t,
        sectionText "Paper Recheck" p] ++ [rulesBlock]),
    ?_, ?_, ?_, ?_, ?_, ?_, ?_, ?_⟩
  · simp [create_context_message, pyIndex, ha, hc, hs, hl, ht, hp, Bind.bind,
      Except.bind, sectionText, Pure.pure, Except.pure]
  · exact containsSub_pyJoin_of_mem _ _ _ (by simp)
  · exact containsSub_pyJoin_of_mem _ _ _ (by simp)
  · exact containsSub_pyJoin_of_mem _ _ _ (by simp)
  · exact containsSub_pyJoin_of_mem _ _ _ (by simp)
  · exact containsSub_pyJoin_of_mem _ _ _ (by simp)
  · exact containsSub_pyJoin_of_mem _ _ _ (by simp)
  · exact endsWithStr_pyJoin "\n" _ rulesBlock

theorem context_message_sections_and_policy_witness :
    ∃ out, create_context_message (load_data (fun _ => none)) = .ok out
      ∧ containsSub out (sectionText "Academic Deadlines" (Json.obj []))
      ∧ containsSub out (sectionText "Course Information" (Json.obj []))
      ∧ containsSub out (sectionText "Student Support" (Json.obj []))
      ∧ containsSub out (sectionText "Library Books" (Json.obj []))
      ∧ containsSub out (sectionText "Transport Services" (Json.obj []))
      ∧ containsSub out (sectionText "Paper Recheck" (Json.obj []))
      ∧ endsWithStr out rulesBlock :=
  context_message_sections_and_policy (load_data (fun _ => none))
    (Json.obj []) (Json.obj []) (Json.obj []) (Json.obj []) (Json.obj [])
    (Json.obj []) rfl rfl rfl rfl rfl rfl

/-- C9: the get-dataset endpoint signals NotFound with a 404 for every name
outside the configured set - it never returns an empty value - and a
successful read is pure: the store is left unchanged and the returned value
is exactly the stored one. -/
theorem get_unknown_name_not_found (st : Store) (name : String)
    (h : dictGet st name = none) :
    (get_data st name).2 = .error ⟨404, "File not found"⟩
      ∧ (∀ n, (get_data st n).1 = st)
      ∧ (∀ n v, (get_data st n).2 = .ok v → dictGet st n = some v) := by
  refine ⟨by simp [get_data, h], fun n => rfl, fun n v hv => ?_⟩
  cases hg : dictGet st n with
  | some w =>
      simp [get_data, hg] at hv
      simp [hv]
  | none => simp [get_data, hg] at hv

theorem get_unknown_name_not_found_witness :
    (get_data (load_data (fun _ => none)) "nonexistent_dataset").2
        = .error ⟨404, "File not found"⟩
      ∧ (∀ n, (get_data (load_data (fun _ => none)) n).1
          = load_data (fun _ => none))
      ∧ (∀ n v, (get_data (load_data (fun _ => none)) n).2 = .ok v →
          dictGet (load_data (fun _ => none)) n = some v) :=
  get_unknown_name_not_found (load_data (fun _ => none))
    "nonexistent_dataset" rfl

/-- C10: updating a configured dataset whose current value is a scalar
(neither mapping nor sequence) takes no merge branch: the store is left
exactly as it was, yet the backing file is still rewritten with the
unchanged value and the endpoint reports success returning that value. -/
theorem update_scalar_leaves_value_unchanged (st : Store) (disk : Disk)
    (name path : String) (patch : List (String × Json)) (cur : Json)
    (hcur : dictGet st name = some cur)
    (hp : lookupPath name = some path)
    (hobj : cur.isObj = false) (harr : cur.isArr = false) :
    (update_data st disk name patch true).1 = st
      ∧ (update_data st disk name patch true).2.1 path = some (some cur)
      ∧ (update_data st disk name patch true).2.2 = .ok cur := by
  have hap : applyPatch cur patch = cur := by
    cases cur with
    | obj entries => simp [Json.isObj] at hobj
    | arr items => simp [Json.isArr] at harr
    | null => rfl
    | bool b => rfl
    | num n => rfl
    | str s => rfl
  simp only [update_data, update_body, hcur, hp, hap, if_pos]
  refine ⟨dictSet_self st name cur hcur, ?_, ?_⟩ <;> simp

theorem update_scalar_leaves_value_unchanged_witness :
    (update_data [("paper_recheck", Json.str "hello")] (fun _ => none)
        "paper_recheck" [("x", Json.null)] true).1
        = [("paper_recheck", Json.str "hello")]
      ∧ (update_data [("paper_recheck", Json.str "hello")] (fun _ => none)
          "paper_recheck" [("x", Json.null)] true).2.1
          "data/json/paper_recheck.json" = some (some (Json.str "hello"))
      ∧ (update_data [("paper_recheck", Json.str "hello")] (fun _ => none)
          "paper_recheck" [("x", Json.null)] true).2.2
          = .ok (Json.str "hello") :=
  update_scalar_leaves_value_unchanged [("paper_recheck", Json.str "hello")]
    (fun _ => none) "paper_recheck" "data/json/paper_recheck.json"
    [("x", Json.null)] (Json.str "hello") rfl rfl rfl rfl
